import Mathlib

/-!
Verification of the streaming session controller of the chat frontend.

The embedding below follows the source of `RealChatAPI.sendMessageStream`
(the fetch read loop: incremental buffer, line split, SSE event dispatch)
and of the `useChat` hook (the `sendMessageStream` callback: stream tracker,
`onChunk` transcript updates, catch-block rollback).

Conventions of the embedding:
* Wire text is modelled after the platform `TextDecoder` step, as `List Char`
  chunks: the streaming decoder's held-back-bytes contract makes the decoded
  text of the chunk sequence concatenation-faithful, and the newline byte
  0x0A never occurs inside a multi-byte UTF-8 sequence.
* React functional state updates `set(prev => f prev)` are modelled as pure
  functions on a `ChatState`; updates queued inside one synchronous block
  compose in order and become observable only at a suspension point.
* `ChatState` carries the fields of the hook state that the modelled paths
  read or write (`messages`, `isLoading`, `error`) plus `activeMatches`,
  which renders the reference comparison `activeStreamRef.current ===
  streamTracker` of the `done` branch.  The remaining hook fields
  (`currentSessionId`, `uploadProgress`) are not touched by any modelled
  operation and are omitted.
-/

/-- Message sender tag, from the `ChatMessage` interface:
`sender: "human" | "ai" | "tool"`. -/
inductive Sender where
  | human
  | ai
  | tool
deriving DecidableEq, Repr

/-- One transcript message, from the `ChatMessage` interface. -/
structure ChatMessage where
  sender : Sender
  content : String
  timestamp : Nat
deriving DecidableEq, Repr

/-- A decoded stream chunk, from the `StreamChunk` interface:
`type: "content" | "done" | "error"` with optional `content` / `error`
fields (absent fields are `none`). -/
inductive StreamChunk where
  | content (text : Option String)
  | done
  | error (message : Option String)
deriving DecidableEq, Repr

/-- The stream tracker record created in `sendMessageStream`:
`{ sessionId: targetSessionId, aborted: false }`. -/
structure StreamTracker where
  sessionId : String
  aborted : Bool
deriving DecidableEq, Repr

/-- The useChat controller state visible to the modelled operations. -/
structure ChatState where
  messages : List ChatMessage
  isLoading : Bool
  error : Option String
  /-- Whether `activeStreamRef.current` is reference-equal to the current
  turn's `streamTracker`. -/
  activeMatches : Bool
deriving DecidableEq, Repr

/-- JavaScript truthiness of an optional string (`undefined` and `""` are
falsy), as used by the gate `chunk.type === "content" && chunk.content`. -/
def truthyString : Option String → Bool
  | some s => !s.isEmpty
  | none => false

/-- JavaScript `chunk.error || "Stream error occurred"`. -/
def errorText : Option String → String
  | some s => if s.isEmpty then "Stream error occurred" else s
  | none => "Stream error occurred"

/-- JavaScript template-literal rendering of a possibly-absent string
(`undefined` prints as the text `undefined`). -/
def jsString : Option String → String
  | some s => s
  | none => "undefined"

/-- The character `'` (U+0027). -/
def qc : Char := Char.ofNat 39

/-- The character left curly brace (U+007B). -/
def lbrace : Char := Char.ofNat 123

/-- The character right curly brace (U+007D). -/
def rbrace : Char := Char.ofNat 125

/-- The literal part of the tool-result regex: the eight characters of
the opening brace followed by quoted `path` and a colon. -/
def toolMarker : List Char := [lbrace, qc, 'p', 'a', 't', 'h', qc, ':']

/-- A JavaScript regex line terminator, which `.` (without the `s` flag)
does not match: LF, CR, LS, PS. -/
def isLineTerm (c : Char) : Bool :=
  c = '\n' || c = '\r' || c = Char.ofNat 0x2028 || c = Char.ofNat 0x2029

/-- The lazy tail of the tool-result regex: consume as few `.` characters
as possible and then a closing brace; fails at a line terminator or at
end of input. -/
def lazyBrace : List Char → Option (List Char)
  | [] => none
  | c :: rest =>
    if c = rbrace then some [c]
    else if isLineTerm c then none
    else (lazyBrace rest).map (fun m => c :: m)

/-- Leftmost-match search of the tool-result regex over the character
list: at each start position try the literal marker followed by the lazy
brace tail, else advance one character. -/
def toolScan : List Char → Option (List Char)
  | [] => none
  | c :: rest =>
    if toolMarker.isPrefixOf (c :: rest) then
      match lazyBrace ((c :: rest).drop 8) with
      | some m => some (toolMarker ++ m)
      | none => toolScan rest
    else toolScan rest

/-- First match of the tool-result pattern in a string, rendering the
source `toolResultPattern.test(content)` (matched iff `some`) and
`content.match(toolResultPattern)?.[0]` (the matched text). -/
def toolResultMatch (s : String) : Option String :=
  (toolScan s.toList).map fun l => String.mk l

/-- The transcript update of the `content` branch of `onChunk`: take the
trailing message; if it exists and its sender is `ai`, either split off a
tool message plus a fresh empty ai message (on a pattern match) or
concatenate the text onto the trailing message; otherwise return the
list unchanged. -/
def applyContent (now : Nat) (msgs : List ChatMessage) (text : String) :
    List ChatMessage :=
  match msgs.getLast? with
  | some lastMsg =>
    if lastMsg.sender = Sender.ai then
      match toolResultMatch text with
      | some payload =>
        msgs ++ [⟨Sender.tool, payload, now⟩, ⟨Sender.ai, "", now⟩]
      | none =>
        msgs.dropLast ++ [{ lastMsg with content := lastMsg.content ++ text }]
    else msgs
  | none => msgs

/-- The onChunk callback of `useChat.sendMessageStream`, as a state
transformer: early return on an aborted tracker; `content` chunks with
truthy text go through `applyContent`; `done` clears the loading flag and
the active-stream reference; `error` surfaces the message and clears the
loading flag. -/
def onChunk (now : Nat) (tr : StreamTracker) (chunk : StreamChunk)
    (s : ChatState) : ChatState :=
  if tr.aborted then s
  else
    match chunk with
    | StreamChunk.content text =>
      if truthyString text then
        { s with messages := applyContent now s.messages ((text).getD "") }
      else s
    | StreamChunk.done =>
      { s with isLoading := false, activeMatches := false }
    | StreamChunk.error msg =>
      { s with error := some (errorText msg), isLoading := false }

/-- Append of the human message of a turn (first `setMessages` call of
`sendMessageStream`). -/
def appendUserMessage (now : Nat) (text : String) (s : ChatState) : ChatState :=
  { s with messages := s.messages ++ [⟨Sender.human, text, now⟩] }

/-- Append of the empty ai placeholder (second `setMessages` call of
`sendMessageStream`). -/
def appendAiPlaceholder (now : Nat) (s : ChatState) : ChatState :=
  { s with messages := s.messages ++ [⟨Sender.ai, "", now⟩] }

/-- The synchronous prefix of `sendMessageStream` before the network call:
clear the error, set loading, append the human message and the empty ai
placeholder.  All four updates happen in one synchronous block, before
the first suspension point, so this composite is the first observable
state of the turn. -/
def beginTurn (now : Nat) (text : String) (s : ChatState) : ChatState :=
  appendAiPlaceholder now
    (appendUserMessage now text { s with error := none, isLoading := true })

/-- The catch block of `sendMessageStream`: for a non-aborted tracker,
surface the error and drop the last two messages (`prev.slice(0, -2)`). -/
def catchRollback (tr : StreamTracker) (msg : String) (s : ChatState) :
    ChatState :=
  if tr.aborted then s
  else
    { s with
      error := some msg
      messages := s.messages.take (s.messages.length - 2) }

/-- A parsed SSE payload: the `type` discriminator plus the fields the
dispatch reads (absent fields are `none`).  This is the result of the
platform `JSON.parse` on the text after the `data: ` marker. -/
structure EventData where
  type : String
  content : Option String
  tool : Option String
  message : Option String
deriving DecidableEq, Repr

/-- The event-type dispatch of the read loop of
`RealChatAPI.sendMessageStream`: `content`, `tool_call`, `tool_result`,
`end` and `error` produce a chunk, anything else produces none. -/
def interpretEvent (e : EventData) : Option StreamChunk :=
  if e.type = "content" then some (StreamChunk.content e.content)
  else if e.type = "tool_call" then
    some (StreamChunk.content
      (some ("\n[Using tool: " ++ jsString e.tool ++ "]\n")))
  else if e.type = "tool_result" then
    some (StreamChunk.content (some ("\n" ++ jsString e.content ++ "\n")))
  else if e.type = "end" then some StreamChunk.done
  else if e.type = "error" then some (StreamChunk.error e.message)
  else none

/-- Prepend a character to the first complete line of a split result, or
to the pending fragment when no complete line exists yet. -/
def consLine (c : Char) : List (List Char) × List Char →
    List (List Char) × List Char
  | ([], frag) => ([], c :: frag)
  | (l :: ls, frag) => ((c :: l) :: ls, frag)

/-- JavaScript `s.split("\n")` viewed as the pair of the complete
(newline-terminated) lines and the trailing fragment after the last
newline: `s.split("\n")` equals the complete lines followed by the
fragment as the final element. -/
def lines : List Char → List (List Char) × List Char
  | [] => ([], [])
  | c :: rest =>
    if c = '\n' then ([] :: (lines rest).1, (lines rest).2)
    else consLine c (lines rest)

/-- The read loop of `RealChatAPI.sendMessageStream` restricted to line
framing: on each received chunk, split the carried-over buffer plus the
chunk, emit the complete lines, and keep the trailing fragment as the
new buffer (`buffer = lines.pop() || ""`); at end of input the pending
buffer is discarded. -/
def feedLoop : List Char → List (List Char) → List (List Char)
  | _, [] => []
  | buf, chunk :: rest =>
    (lines (buf ++ chunk)).1 ++ feedLoop (lines (buf ++ chunk)).2 rest

/-- The Frame Decoder: all line records emitted over a whole sequence of
received text chunks, starting from an empty buffer. -/
def decodeStream (chunks : List (List Char)) : List (List Char) :=
  feedLoop [] chunks

/-- Per-line processing of the read loop: trim, require the `data: `
marker, hand the rest to the platform JSON parse (modelled as the
`parse` argument; a parse failure is caught and yields no chunk), and
dispatch the parsed event. -/
def processLine (parse : String → Option EventData) (line : List Char) :
    Option StreamChunk :=
  let trimmed := (String.mk line).trim
  if trimmed.startsWith "data: " then
    match parse (trimmed.drop 6) with
    | some e => interpretEvent e
    | none => none
  else none

/-- The whole read loop of `RealChatAPI.sendMessageStream`: every decoded
line is interpreted in order, and when the reader reports end of input
(`done`) a final `done` chunk is delivered unconditionally. -/
def runStream (parse : String → Option EventData)
    (chunks : List (List Char)) : List StreamChunk :=
  (decodeStream chunks).filterMap (processLine parse) ++ [StreamChunk.done]

/-- The states observable after each chunk application of a turn, in
delivery order. -/
def chunkTrace (now : Nat) (tr : StreamTracker) :
    ChatState → List StreamChunk → List ChatState
  | _, [] => []
  | s, c :: cs => onChunk now tr c s :: chunkTrace now tr (onChunk now tr c s) cs

/-- All observable states of one streaming turn: the state right after the
synchronous turn prefix (the first render of the turn) followed by the
states after each delivered chunk. -/
def turnTrace (now : Nat) (tr : StreamTracker) (text : String)
    (chunks : List StreamChunk) (s0 : ChatState) : List ChatState :=
  beginTurn now text s0 :: chunkTrace now tr (beginTurn now text s0) chunks

/-- Claim C1: a chunk delivered against an aborted stream tracker never
mutates the controller state — in particular the transcript — for every
chunk type and every state. -/
theorem c1_aborted_chunk_no_mutation (now : Nat) (sid : String)
    (chunk : StreamChunk) (s : ChatState) :
    onChunk now ⟨sid, true⟩ chunk s = s := by
  rfl

/-- Claim C8 (theorem): applying `done` twice for the same non-aborted
tracker is idempotent — the loading flag is false after the first
application, and the second application returns the state unchanged. -/
theorem c8_done_idempotent (now now2 : Nat) (sid : String) (s : ChatState) :
    (onChunk now ⟨sid, false⟩ StreamChunk.done s).isLoading = false ∧
    onChunk now2 ⟨sid, false⟩ StreamChunk.done
        (onChunk now ⟨sid, false⟩ StreamChunk.done s) =
      onChunk now ⟨sid, false⟩ StreamChunk.done s := by
  constructor
  · rfl
  · rfl

/-- Claim C10: a `content` chunk whose text is the empty string or absent
is falsy under the truthiness gate and never mutates the state. -/
theorem c10_empty_content_drop (now : Nat) (tr : StreamTracker)
    (s : ChatState) :
    onChunk now tr (StreamChunk.content (some "")) s = s ∧
    onChunk now tr (StreamChunk.content none) s = s := by
  unfold onChunk
  constructor
  · split
    · rfl
    · simp [truthyString, String.isEmpty]
  · split
    · rfl
    · simp [truthyString]

/-- Claim C2 (counterexample): on a `tool_call` event with tool `shell`,
the interpreter emits content wrapped in newline characters, which differs
from the bare bracketed text the claim states. -/
theorem c2_counterexample :
    interpretEvent ⟨"tool_call", none, some "shell", none⟩ =
      some (StreamChunk.content (some "\n[Using tool: shell]\n")) ∧
    ("\n[Using tool: shell]\n" : String) ≠ "[Using tool: shell]" := by
  constructor
  · rfl
  · decide

/-- Claim C2 (amended): on a `tool_call` event carrying tool name `t`, the
interpreter emits exactly `Content("\n[Using tool: " ++ t ++ "]\n")` —
the bracketed text wrapped in a leading and a trailing newline. -/
theorem c2_tool_call_emission (t : String) (c m : Option String) :
    interpretEvent ⟨"tool_call", c, some t, m⟩ =
      some (StreamChunk.content
        (some ("\n[Using tool: " ++ t ++ "]\n"))) := by
  simp [interpretEvent, jsString]

/-- Claim C9 (counterexample): a content chunk arriving while the trailing
message is `human` leaves the whole controller state unchanged — in
particular the error field stays `none`, so no internal error is
reported, contrary to the claim. -/
theorem c9_counterexample :
    onChunk 0 ⟨"s", false⟩ (StreamChunk.content (some "x"))
        ⟨[⟨Sender.human, "q", 0⟩], true, none, true⟩ =
      ⟨[⟨Sender.human, "q", 0⟩], true, none, true⟩ ∧
    (onChunk 0 ⟨"s", false⟩ (StreamChunk.content (some "x"))
        ⟨[⟨Sender.human, "q", 0⟩], true, none, true⟩).error = none := by
  constructor
  · rfl
  · rfl

/-- Claim C9 (amended): a content chunk applied while the trailing message
is missing or has a sender other than `ai` is dropped silently: the
state, including the transcript and the error field, is unchanged, and no
internal error is reported. -/
theorem c9_silent_drop (now : Nat) (sid : String) (text : String)
    (s : ChatState)
    (h : s.messages.getLast?.all (fun m => m.sender != Sender.ai) = true) :
    onChunk now ⟨sid, false⟩ (StreamChunk.content (some text)) s = s := by
  have happly : applyContent now s.messages text = s.messages := by
    cases hL : s.messages.getLast? with
    | none => simp [applyContent, hL]
    | some lastMsg =>
      rw [hL] at h
      simp only [Option.all_some, bne_iff_ne, ne_eq] at h
      simp [applyContent, hL, h]
  unfold onChunk
  simp [happly]

/-- Claim C9 witness: the silent-drop theorem applied to a concrete state
whose only message is a human one. -/
theorem c9_silent_drop_witness :
    onChunk 0 ⟨"sid", false⟩ (StreamChunk.content (some "hello"))
        ⟨[⟨Sender.human, "hi", 0⟩], true, none, true⟩ =
      ⟨[⟨Sender.human, "hi", 0⟩], true, none, true⟩ :=
  c9_silent_drop 0 "sid" "hello" ⟨[⟨Sender.human, "hi", 0⟩], true, none, true⟩
    (by decide)

/-- A matched tool pattern implies the chunk text is non-empty, hence
truthy under the content gate. -/
theorem toolMatch_truthy {text payload : String}
    (h : toolResultMatch text = some payload) :
    truthyString (some text) = true := by
  have hne : text ≠ "" := by
    intro he
    have h0 : toolResultMatch "" = none := rfl
    rw [he, h0] at h
    exact Option.noConfusion h
  have hE : text.isEmpty = false := by
    cases hT : text.isEmpty
    · rfl
    · exact absurd ((String.isEmpty_iff text).mp hT) hne
  simp [truthyString, hE]

/-- Claim C4: a content chunk whose text matches the tool-output pattern,
applied while the trailing message is an ai message, leaves that ai
message as-is and appends a tool message holding the matched payload
followed by a fresh empty ai message. -/
theorem c4_tool_split (now : Nat) (sid : String) (text payload : String)
    (s : ChatState) (pre : List ChatMessage) (lastMsg : ChatMessage)
    (hmsgs : s.messages = pre ++ [lastMsg])
    (hai : lastMsg.sender = Sender.ai)
    (hmatch : toolResultMatch text = some payload) :
    (onChunk now ⟨sid, false⟩ (StreamChunk.content (some text)) s).messages =
      pre ++ [lastMsg, ⟨Sender.tool, payload, now⟩, ⟨Sender.ai, "", now⟩] := by
  have htr : truthyString (some text) = true := toolMatch_truthy hmatch
  have happ : applyContent now s.messages text =
      pre ++ [lastMsg, ⟨Sender.tool, payload, now⟩, ⟨Sender.ai, "", now⟩] := by
    rw [hmsgs]
    unfold applyContent
    rw [List.getLast?_concat]
    simp [hai, hmatch]
  unfold onChunk
  simp [htr, happ]

/-- Claim C4 witness: the tool-split theorem applied to a transcript whose
single message is an empty ai message and a concrete matching chunk. -/
theorem c4_tool_split_witness :
    (onChunk 0 ⟨"sid", false⟩
        (StreamChunk.content (some (String.mk
          [lbrace, qc, 'p', 'a', 't', 'h', qc, ':', ' ', '1', rbrace])))
        ⟨[⟨Sender.ai, "", 0⟩], true, none, true⟩).messages =
      [⟨Sender.ai, "", 0⟩,
       ⟨Sender.tool,
        String.mk [lbrace, qc, 'p', 'a', 't', 'h', qc, ':', ' ', '1', rbrace],
        0⟩,
       ⟨Sender.ai, "", 0⟩] :=
  c4_tool_split 0 "sid"
    (String.mk [lbrace, qc, 'p', 'a', 't', 'h', qc, ':', ' ', '1', rbrace])
    (String.mk [lbrace, qc, 'p', 'a', 't', 'h', qc, ':', ' ', '1', rbrace])
    ⟨[⟨Sender.ai, "", 0⟩], true, none, true⟩ [] ⟨Sender.ai, "", 0⟩
    rfl rfl (by decide)

/-- Claim C7: on a transport failure for a non-aborted stream whose
transcript ends with the turn's human/ai pair, the catch block removes
exactly those two messages, leaves every earlier message unchanged, and
surfaces the error message. -/
theorem c7_transport_rollback (msg sid : String) (s : ChatState)
    (pre : List ChatMessage) (hm am : ChatMessage)
    (hmsgs : s.messages = pre ++ [hm, am])
    (_hh : hm.sender = Sender.human) (_ha : am.sender = Sender.ai) :
    (catchRollback ⟨sid, false⟩ msg s).messages = pre ∧
    (catchRollback ⟨sid, false⟩ msg s).error = some msg := by
  refine ⟨?_, rfl⟩
  show (s.messages.take (s.messages.length - 2)) = pre
  rw [hmsgs]
  have hlen : (pre ++ [hm, am]).length - 2 = pre.length := by simp
  rw [hlen]
  exact List.take_left pre [hm, am]

/-- Claim C7 witness: the rollback theorem applied to a transcript holding
exactly one unfinished human/ai pair. -/
theorem c7_transport_rollback_witness :
    (catchRollback ⟨"sid", false⟩ "boom"
        ⟨[⟨Sender.human, "hello", 0⟩, ⟨Sender.ai, "Hi", 0⟩],
         true, none, true⟩).messages = [] ∧
    (catchRollback ⟨"sid", false⟩ "boom"
        ⟨[⟨Sender.human, "hello", 0⟩, ⟨Sender.ai, "Hi", 0⟩],
         true, none, true⟩).error = some "boom" :=
  c7_transport_rollback "boom" "sid"
    ⟨[⟨Sender.human, "hello", 0⟩, ⟨Sender.ai, "Hi", 0⟩], true, none, true⟩
    [] ⟨Sender.human, "hello", 0⟩ ⟨Sender.ai, "Hi", 0⟩ rfl rfl rfl

/-- The pending fragment of a line split never contains a newline. -/
theorem lines_frag_no_newline (s : List Char) : '\n' ∉ (lines s).2 := by
  induction s with
  | nil => simp [lines]
  | cons c rest ih =>
    rw [lines]
    split
    · exact ih
    · rename_i hc
      rcases hlr : lines rest with ⟨ls, fr⟩
      rw [hlr] at ih
      cases ls with
      | nil =>
        simp only [consLine]
        intro hmem
        rcases List.mem_cons.mp hmem with h1 | h2
        · exact hc h1.symm
        · exact ih h2
      | cons l ls2 => simpa [consLine] using ih

/-- A newline-free character list splits into no complete line and itself
as the pending fragment. -/
theorem lines_of_no_newline (s : List Char) (h : '\n' ∉ s) :
    lines s = ([], s) := by
  induction s with
  | nil => rfl
  | cons c rest ih =>
    have hc : ¬c = '\n' := by
      intro he
      exact h (by rw [he]; exact List.mem_cons_self _ _)
    have hr : '\n' ∉ rest := fun hm => h (List.mem_cons_of_mem c hm)
    rw [lines, if_neg hc, ih hr]
    rfl

/-- Splitting a concatenation: the complete lines of `x ++ y` are the
complete lines of `x` followed by the complete lines of `x`'s pending
fragment prepended to `y`, and the fragments agree. -/
theorem lines_append (x y : List Char) :
    lines (x ++ y) =
      ((lines x).1 ++ (lines ((lines x).2 ++ y)).1,
       (lines ((lines x).2 ++ y)).2) := by
  induction x with
  | nil => simp [lines]
  | cons c rest ih =>
    by_cases hc : c = '\n'
    · subst hc
      rw [List.cons_append]
      simp only [lines, if_pos rfl]
      rw [ih]
      simp
    · rw [List.cons_append]
      simp only [lines, if_neg hc]
      rw [ih]
      rcases hlr : lines rest with ⟨ls, fr⟩
      cases ls with
      | nil =>
        simp only [consLine, List.nil_append]
        rw [List.cons_append]
        simp only [lines, if_neg hc]
        rcases lines (fr ++ y) with ⟨ls2, fr2⟩
        cases ls2 <;> rfl
      | cons l ls2 =>
        simp [consLine]

/-- The emitted lines of the read loop depend only on the concatenation
of the received chunks: starting from a newline-free buffer, the loop
emits exactly the complete lines of the buffer followed by all chunks. -/
theorem feedLoop_eq (cs : List (List Char)) (buf : List Char)
    (h : '\n' ∉ buf) :
    feedLoop buf cs = (lines (buf ++ cs.flatten)).1 := by
  induction cs generalizing buf with
  | nil =>
    simp only [feedLoop, List.flatten_nil, List.append_nil,
      lines_of_no_newline buf h]
  | cons chunk rest ih =>
    simp only [feedLoop]
    rw [ih (lines (buf ++ chunk)).2 (lines_frag_no_newline _)]
    rw [List.flatten_cons, ← List.append_assoc]
    rw [lines_append (buf ++ chunk) rest.flatten]

/-- The number of complete lines of a character list equals its number of
newline characters. -/
theorem lines_fst_length (s : List Char) :
    (lines s).1.length = s.count '\n' := by
  induction s with
  | nil => simp [lines]
  | cons c rest ih =>
    by_cases hc : c = '\n'
    · subst hc
      simp [lines, ih, List.count_cons]
    · rcases hlr : lines rest with ⟨ls, fr⟩
      rw [hlr] at ih
      simp only [lines, if_neg hc]
      rw [hlr]
      cases ls with
      | nil => simpa [consLine, List.count_cons, hc] using ih
      | cons l ls2 => simpa [consLine, List.count_cons, hc] using ih

/-- Claim C5: over any fragmentation of the input into chunks, the Frame
Decoder emits exactly the complete newline-terminated lines of the
concatenation — their number is the number of newline characters — and the
trailing unterminated fragment is never emitted (the emitted list is the
complete-lines component only). -/
theorem c5_fragmentation_invariance (chunks : List (List Char)) :
    decodeStream chunks = (lines chunks.flatten).1 ∧
    (decodeStream chunks).length = chunks.flatten.count '\n' := by
  have h1 : decodeStream chunks = (lines chunks.flatten).1 := by
    have := feedLoop_eq chunks [] (by simp)
    simpa [decodeStream] using this
  exact ⟨h1, by rw [h1, lines_fst_length]⟩

/-- Claim C6: when the underlying connection closes, the read loop's final
delivered chunk is `done` — also when no `end` event ever arrived — and
applying that `done` chunk to a non-aborted stream completes the turn
(clears the loading flag) without surfacing any error. -/
theorem c6_implicit_done (parse : String → Option EventData)
    (chunks : List (List Char)) (now : Nat) (sid : String) (s : ChatState) :
    (runStream parse chunks).getLast? = some StreamChunk.done ∧
    (onChunk now ⟨sid, false⟩ StreamChunk.done s).isLoading = false ∧
    (onChunk now ⟨sid, false⟩ StreamChunk.done s).error = s.error := by
  refine ⟨?_, rfl, rfl⟩
  unfold runStream
  exact List.getLast?_concat _

/-- Reduction of `applyContent` under a known trailing message. -/
theorem applyContent_eq_of_getLast (now : Nat) (msgs : List ChatMessage)
    (text : String) (lastMsg : ChatMessage)
    (hL : msgs.getLast? = some lastMsg) :
    applyContent now msgs text =
      if lastMsg.sender = Sender.ai then
        match toolResultMatch text with
        | some payload =>
          msgs ++ [⟨Sender.tool, payload, now⟩, ⟨Sender.ai, "", now⟩]
        | none =>
          msgs.dropLast ++
            [{ lastMsg with content := lastMsg.content ++ text }]
      else msgs := by
  unfold applyContent
  rw [hL]

/-- Reduction of `onChunk` on a non-aborted tracker and a truthy content
chunk. -/
theorem onChunk_content_eq (now : Nat) (tr : StreamTracker)
    (text : Option String) (s : ChatState) (htr : tr.aborted = false)
    (htru : truthyString text = true) :
    onChunk now tr (StreamChunk.content text) s =
      { s with messages := applyContent now s.messages (text.getD "") } := by
  simp [onChunk, htr, htru]

/-- Reduction of `onChunk` on a non-aborted tracker and a falsy content
chunk. -/
theorem onChunk_content_falsy (now : Nat) (tr : StreamTracker)
    (text : Option String) (s : ChatState) (htr : tr.aborted = false)
    (htru : truthyString text = false) :
    onChunk now tr (StreamChunk.content text) s = s := by
  simp [onChunk, htr, htru]

/-- Reduction of `onChunk` on an aborted tracker. -/
theorem onChunk_aborted_eq (now : Nat) (tr : StreamTracker)
    (c : StreamChunk) (s : ChatState) (htr : tr.aborted = true) :
    onChunk now tr c s = s := by
  simp [onChunk, htr]

/-- The done and error branches of `onChunk` keep the transcript. -/
theorem onChunk_messages_of_not_content (now : Nat) (tr : StreamTracker)
    (c : StreamChunk) (s : ChatState)
    (hc : ∀ text, c ≠ StreamChunk.content text) :
    (onChunk now tr c s).messages = s.messages := by
  unfold onChunk
  cases htr : tr.aborted
  · cases c with
    | content text => exact absurd rfl (hc text)
    | done => rfl
    | error msg => rfl
  · rfl

/-- The update `applyContent` preserves the turn-pair shape: if the messages are some
base followed by a head message, an ai-sender message and anything after,
so are they after the update, with the same base and head. -/
theorem applyContent_preserves_pair (now : Nat) (text : String)
    (base : List ChatMessage) (hd m : ChatMessage)
    (rest : List ChatMessage) (hai : m.sender = Sender.ai) :
    ∃ (m2 : ChatMessage) (rest2 : List ChatMessage),
      applyContent now (base ++ hd :: m :: rest) text =
        base ++ hd :: m2 :: rest2 ∧ m2.sender = Sender.ai := by
  cases hL : (base ++ hd :: m :: rest).getLast? with
  | none =>
    refine ⟨m, rest, ?_, hai⟩
    unfold applyContent
    rw [hL]
  | some lastMsg =>
    rw [applyContent_eq_of_getLast now _ text lastMsg hL]
    by_cases hsend : lastMsg.sender = Sender.ai
    · rw [if_pos hsend]
      cases hmt : toolResultMatch text with
      | some payload =>
        refine ⟨m,
          rest ++ [⟨Sender.tool, payload, now⟩, ⟨Sender.ai, "", now⟩],
          ?_, hai⟩
        simp
      | none =>
        rcases List.eq_nil_or_concat rest with hrest | ⟨rest0, rlast, hrest⟩
        · subst hrest
          refine ⟨{ lastMsg with content := lastMsg.content ++ text }, [],
            ?_, hsend⟩
          rw [show base ++ hd :: m :: ([] : List ChatMessage) =
            (base ++ [hd]) ++ [m] by simp]
          rw [List.dropLast_concat]
          simp
        · subst hrest
          refine ⟨m,
            rest0 ++ [{ lastMsg with content := lastMsg.content ++ text }],
            ?_, hai⟩
          rw [show base ++ hd :: m :: rest0.concat rlast =
            (base ++ hd :: m :: rest0) ++ [rlast] by simp]
          rw [List.dropLast_concat]
          simp
    · rw [if_neg hsend]
      exact ⟨m, rest, rfl, hai⟩

/-- The transformer `onChunk` preserves the turn-pair shape for every tracker and chunk. -/
theorem onChunk_preserves_pair (now2 : Nat) (tr : StreamTracker)
    (c : StreamChunk) (base : List ChatMessage) (hd : ChatMessage)
    (s : ChatState)
    (h : ∃ (m : ChatMessage) (rest : List ChatMessage),
      s.messages = base ++ hd :: m :: rest ∧ m.sender = Sender.ai) :
    ∃ (m : ChatMessage) (rest : List ChatMessage),
      (onChunk now2 tr c s).messages = base ++ hd :: m :: rest ∧
        m.sender = Sender.ai := by
  obtain ⟨m, rest, hmsgs, hai⟩ := h
  cases htr : tr.aborted with
  | true =>
    rw [onChunk_aborted_eq now2 tr c s htr]
    exact ⟨m, rest, hmsgs, hai⟩
  | false =>
    cases c with
    | done =>
      rw [onChunk_messages_of_not_content now2 tr StreamChunk.done s
        (fun t h => StreamChunk.noConfusion h)]
      exact ⟨m, rest, hmsgs, hai⟩
    | error msg =>
      rw [onChunk_messages_of_not_content now2 tr (StreamChunk.error msg) s
        (fun t h => StreamChunk.noConfusion h)]
      exact ⟨m, rest, hmsgs, hai⟩
    | content text =>
      by_cases htru : truthyString text = true
      · rw [onChunk_content_eq now2 tr text s htr htru]
        show ∃ m2 rest2,
          applyContent now2 s.messages (text.getD "") =
            base ++ hd :: m2 :: rest2 ∧ m2.sender = Sender.ai
        rw [hmsgs]
        exact applyContent_preserves_pair now2 (text.getD "") base hd m rest hai
      · rw [onChunk_content_falsy now2 tr text s htr
          (Bool.not_eq_true _ ▸ htru)]
        exact ⟨m, rest, hmsgs, hai⟩

/-- Every state of a chunk trace keeps the turn-pair shape. -/
theorem chunkTrace_preserves_pair (now2 : Nat) (tr : StreamTracker)
    (base : List ChatMessage) (hd : ChatMessage) :
    ∀ (cs : List StreamChunk) (s : ChatState),
      (∃ m rest, s.messages = base ++ hd :: m :: rest ∧
        m.sender = Sender.ai) →
      ∀ st ∈ chunkTrace now2 tr s cs,
        ∃ m rest, st.messages = base ++ hd :: m :: rest ∧
          m.sender = Sender.ai
  | [], _, _, _, hst => by simp [chunkTrace] at hst
  | c :: cs, s, hP, st, hst => by
    rw [chunkTrace] at hst
    rcases List.mem_cons.mp hst with h1 | h2
    · subst h1
      exact onChunk_preserves_pair now2 tr c base hd s hP
    · exact chunkTrace_preserves_pair now2 tr base hd cs
        (onChunk now2 tr c s)
        (onChunk_preserves_pair now2 tr c base hd s hP) st h2

/-- Claim C3: the turn's human message and the ai placeholder become
visible together — the first observable state of the turn already holds
both — and in every observable state of the turn the human message is
immediately followed by an ai-sender message (the placeholder, possibly
already extended by streamed content). -/
theorem c3_atomic_turn_pair (now : Nat) (tr : StreamTracker) (text : String)
    (chunks : List StreamChunk) (s0 : ChatState) (st : ChatState)
    (hst : st ∈ turnTrace now tr text chunks s0) :
    (turnTrace now tr text chunks s0).head? =
      some (beginTurn now text s0) ∧
    (beginTurn now text s0).messages =
      s0.messages ++ [⟨Sender.human, text, now⟩, ⟨Sender.ai, "", now⟩] ∧
    ∃ (m : ChatMessage) (rest : List ChatMessage),
      st.messages = s0.messages ++ ⟨Sender.human, text, now⟩ :: m :: rest ∧
      m.sender = Sender.ai := by
  refine ⟨rfl, by simp [beginTurn, appendUserMessage, appendAiPlaceholder], ?_⟩
  have hP : ∃ m rest, (beginTurn now text s0).messages =
      s0.messages ++ ⟨Sender.human, text, now⟩ :: m :: rest ∧
      m.sender = Sender.ai := by
    exact ⟨⟨Sender.ai, "", now⟩, [],
      by simp [beginTurn, appendUserMessage, appendAiPlaceholder], rfl⟩
  rw [turnTrace] at hst
  rcases List.mem_cons.mp hst with h1 | h2
  · subst h1
    exact hP
  · exact chunkTrace_preserves_pair now tr s0.messages
      ⟨Sender.human, text, now⟩ chunks (beginTurn now text s0) hP st h2

/-- Claim C3 witness: the invariant applied to the first observable state
of a turn started on an empty transcript. -/
theorem c3_atomic_turn_pair_witness :
    (turnTrace 0 ⟨"sid", false⟩ "hi" [] ⟨[], false, none, false⟩).head? =
      some (beginTurn 0 "hi" ⟨[], false, none, false⟩) ∧
    (beginTurn 0 "hi" ⟨[], false, none, false⟩).messages =
      (⟨[], false, none, false⟩ : ChatState).messages ++
        [⟨Sender.human, "hi", 0⟩, ⟨Sender.ai, "", 0⟩] ∧
    ∃ (m : ChatMessage) (rest : List ChatMessage),
      (beginTurn 0 "hi" ⟨[], false, none, false⟩).messages =
        (⟨[], false, none, false⟩ : ChatState).messages ++
          ⟨Sender.human, "hi", 0⟩ :: m :: rest ∧
      m.sender = Sender.ai :=
  c3_atomic_turn_pair 0 ⟨"sid", false⟩ "hi" [] ⟨[], false, none, false⟩
    (beginTurn 0 "hi" ⟨[], false, none, false⟩)
    (by simp [turnTrace, chunkTrace])
